import Mathlib

/-!
Shallow embedding of the urban-mobility resilience engine
(`backend/urban_resilience/`): edge selection (`edge_selection.py`),
shock simulation and OD sampling (`simulation.py`), and the progressive
damage experiment (`experiments.py`).

Conventions of the embedding:
* A `networkx.MultiDiGraph` is a list of node ids plus a list of edge
  records `(u, v, key)` carrying the OSM attributes the code reads.
* Python floats are embedded as exact rationals `ℚ`; `int(x)` is
  truncation toward zero (`pyInt`).
* Python exceptions are `Except PyErr`; `PyErr` distinguishes the
  exception classes the code can raise (`ValueError`, `KeyError`,
  `RuntimeError`).
* External library collaborators with their own internal state
  (numpy's seeded generator, networkx's `edge_betweenness_centrality`,
  shapely's geometric intersection) are passed in as explicit function
  arguments: each is a deterministic function of the seed/inputs, which
  is exactly the repository's reproducibility model.  Graph algorithms
  whose semantics the claims depend on (weakly connected components,
  reachability, shortest-path existence) are implemented concretely.
-/

namespace UrbanResilience

/-- A tag value on an OSM edge: either a single string or a
multi-valued list of strings (as produced by osmnx). -/
inductive TagVal where
  | str : String → TagVal
  | multi : List String → TagVal
deriving DecidableEq, Repr

/-- One directed edge of the multigraph, identified by `(u, v, k)` and
carrying the attributes the code reads: the `bridge` / `tunnel` /
`highway` tags, a geometry id (for hazard-polygon intersection), and
the `travel_time` / `length` weight attributes. -/
structure EdgeData where
  u : Nat
  v : Nat
  k : Nat
  bridge : Option TagVal := none
  tunnel : Option TagVal := none
  highway : Option TagVal := none
  geom : Nat := 0
  travel_time : Option ℚ := none
  edge_len : Option ℚ := none
deriving DecidableEq, Repr

/-- A `networkx.MultiDiGraph`: node ids in insertion order, edge
records in insertion order. -/
structure MultiDiGraph where
  nodes : List Nat
  edges : List EdgeData
deriving DecidableEq, Repr

/-- An edge identifier `(u, v, key)`, as in `EdgeId = Tuple[int, int, int]`. -/
abbrev EdgeId := Nat × Nat × Nat

/-- The `(u, v, key)` identifier of an edge record. -/
def EdgeData.eid (e : EdgeData) : EdgeId := (e.u, e.v, e.k)

/-- The Python exception classes raised by the embedded code. -/
inductive PyErr where
  | valueError : String → PyErr
  | keyError : String → PyErr
  | runtimeError : String → PyErr
deriving DecidableEq, Repr

deriving instance DecidableEq for Except

/-- Python `int(x)` on a float: truncation toward zero. -/
def pyInt (q : ℚ) : Int := if 0 ≤ q then ⌊q⌋ else -⌊-q⌋

/-- `config.SCENARIOS`. -/
def SCENARIOS : List String :=
  ["Bridge Collapse", "Tunnel Closure", "Highway Flood",
   "Targeted Attack (Top k%)", "Random Failure"]

/-- Whether the edge GeoDataFrame produced by `graph_to_edges_gdf` has a
given attribute column: osmnx creates a column when at least one edge
carries the attribute. -/
def hasCol (g : MultiDiGraph) (f : EdgeData → Option TagVal) : Bool :=
  g.edges.any (fun e => (f e).isSome)

/-- `select_bridge_edges`: edges whose `bridge` tag is present (non-null);
an absent column or an empty selection gives `[]`. -/
def select_bridge_edges (g : MultiDiGraph) : List EdgeId :=
  if ¬ hasCol g (fun e => e.bridge) then []
  else
    let sub := g.edges.filter (fun e => e.bridge.isSome)
    if sub = [] then [] else sub.map EdgeData.eid

/-- `select_tunnel_edges`: edges whose `tunnel` tag is present (non-null);
an absent column or an empty selection gives `[]`. -/
def select_tunnel_edges (g : MultiDiGraph) : List EdgeId :=
  if ¬ hasCol g (fun e => e.tunnel) then []
  else
    let sub := g.edges.filter (fun e => e.tunnel.isSome)
    if sub = [] then [] else sub.map EdgeData.eid

/-- `is_major` from `select_highway_edges`: the tag (scalar or
multi-valued) matches one of the four major highway classes; a null
value (NaN) matches nothing. -/
def is_major (val : Option TagVal) : Bool :=
  let major := ["motorway", "trunk", "primary", "secondary"]
  match val with
  | none => false
  | some (.str s) => major.contains s
  | some (.multi l) => l.any (fun s => major.contains s)

/-- `select_highway_edges`: filters on `edges["highway"]`.  Unlike the
bridge/tunnel selectors it does not guard against a missing column, so
pandas raises `KeyError` when no edge carries a `highway` tag. -/
def select_highway_edges (g : MultiDiGraph) : Except PyErr (List EdgeId) :=
  if ¬ hasCol g (fun e => e.highway) then .error (.keyError "highway")
  else .ok ((g.edges.filter (fun e => is_major e.highway)).map EdgeData.eid)

/-- `tuple(sorted((u, v)))`: the unordered node pair in canonical order. -/
def normPair (p : Nat × Nat) : Nat × Nat :=
  if p.1 ≤ p.2 then p else (p.2, p.1)

/-- Edge list of `nx.Graph(G)`: each unordered endpoint pair once, in
first-encounter orientation and order (later parallel / reverse edges
collapse onto the stored one). -/
def undirectedEdgesAux : List EdgeData → List (Nat × Nat) → List (Nat × Nat)
  | [], acc => acc
  | e :: es, acc =>
    if acc.any (fun p => normPair p = normPair (e.u, e.v)) then
      undirectedEdgesAux es acc
    else
      undirectedEdgesAux es (acc ++ [(e.u, e.v)])

/-- The edges of the undirected simplification `nx.Graph(G)`. -/
def undirectedEdges (g : MultiDiGraph) : List (Nat × Nat) :=
  undirectedEdgesAux g.edges []

/-- Stable insertion of a `(pair, centrality)` entry into a list sorted
by descending centrality: the inserted element goes before the first
entry whose value is not larger, as Python's stable `sorted` with
`reverse=True` keeps earlier entries first among ties. -/
def insertDesc (x : (Nat × Nat) × ℚ) :
    List ((Nat × Nat) × ℚ) → List ((Nat × Nat) × ℚ)
  | [] => [x]
  | y :: ys => if y.2 ≤ x.2 then x :: y :: ys else y :: insertDesc x ys

/-- `sorted(bet.items(), key=lambda kv: kv[1], reverse=True)`:
stable sort by descending centrality value. -/
def sortDescBySnd : List ((Nat × Nat) × ℚ) → List ((Nat × Nat) × ℚ)
  | [] => []
  | x :: xs => insertDesc x (sortDescBySnd xs)

/-- The external collaborators of `select_edges_for_scenario`:
numpy's seeded `rng.shuffle`, networkx's `edge_betweenness_centrality`
(given the undirected edge list, its `.items()` in dict order), and
shapely's geometry-intersection test against one hazard polygon. -/
structure SelectExt where
  shuffle : Option Nat → List EdgeId → List EdgeId
  bet : List (Nat × Nat) → List ((Nat × Nat) × ℚ)
  intersects : Nat → Nat → Bool

/-- The sorted betweenness items for the Targeted Attack branch. -/
def targetedSorted (ext : SelectExt) (g : MultiDiGraph) :
    List ((Nat × Nat) × ℚ) :=
  sortDescBySnd (ext.bet (undirectedEdges g))

/-- `n_top = max(1, int(len(sorted_edges) * severity))`. -/
def targetedNTop (ext : SelectExt) (g : MultiDiGraph) (severity : ℚ) : Nat :=
  max 1 (pyInt ((targetedSorted ext g).length * severity)).toNat

/-- `top_pairs`: the unordered node pairs of the first `n_top` sorted
betweenness entries. -/
def targetedTopPairs (ext : SelectExt) (g : MultiDiGraph) (severity : ℚ) :
    List (Nat × Nat) :=
  ((targetedSorted ext g).take (targetedNTop ext g severity)).map
    (fun kv => normPair kv.1)

/-- The expansion step of the Targeted Attack branch: every directed /
parallel edge of the original graph whose endpoint pair (in either
order) is among the selected unordered pairs. -/
def targetedCandidates (ext : SelectExt) (g : MultiDiGraph) (severity : ℚ) :
    List EdgeId :=
  g.edges.filterMap (fun e =>
    if normPair (e.u, e.v) ∈ targetedTopPairs ext g severity then
      some e.eid
    else none)

/-- The Targeted Attack selection as the specification words it (for
comparison with `targetedCandidates`, which embeds the source): select
the top `max(1, ceil(severity × total_edge_count))` unordered node
pairs — the ceiling, of severity times the count of *directed* edges —
then expand to every matching directed/parallel edge. -/
def targetedAttackSpecClaim (ext : SelectExt) (g : MultiDiGraph)
    (severity : ℚ) : List EdgeId :=
  let sorted := sortDescBySnd (ext.bet (undirectedEdges g))
  let n_top := max 1 (Int.toNat ⌈(g.edges.length : ℚ) * severity⌉)
  let top := (sorted.take n_top).map (fun kv => normPair kv.1)
  g.edges.filterMap (fun e =>
    if normPair (e.u, e.v) ∈ top then some e.eid else none)

/-- A small concrete test network: the directed path `1→2→3` plus the
reverse edge `3→2`, giving three directed edges on two unordered
endpoint pairs. -/
def gPath3 : MultiDiGraph :=
  ⟨[1, 2, 3], [{ u := 1, v := 2, k := 0 }, { u := 2, v := 3, k := 0 },
    { u := 3, v := 2, k := 0 }]⟩

/-- Concrete external collaborators for witnesses: the identity
permutation as the seeded shuffle, betweenness `2` for the pair `(1,2)`
and `1` for every other pair, and no geometric intersections. -/
def extW : SelectExt :=
  ⟨fun _ l => l,
   fun ues => ues.map (fun p => (p, if p = (1, 2) then 2 else 1)),
   fun _ _ => false⟩

/-- A strongly connected two-node network with `travel_time` weights,
used by witnesses that exercise one full OD-pair measurement. -/
def gOD : MultiDiGraph :=
  ⟨[1, 2], [{ u := 1, v := 2, k := 0, travel_time := some 2 },
    { u := 2, v := 1, k := 0, travel_time := some 2 }]⟩

/-- A concrete raw generator stream for witnesses. -/
def pickT : Option Nat → Nat → Nat × Nat := fun _ t => (t, t)

/-- `select_edges_for_scenario`: the central dispatcher from scenario
name to the list of `(u, v, key)` edges to remove.  An unknown scenario
raises `ValueError`; the Highway Flood fallback can raise `KeyError`
(see `select_highway_edges`). -/
def select_edges_for_scenario (ext : SelectExt) (g : MultiDiGraph)
    (scenario : String) (severity : ℚ)
    (usgs_flood_polygons : Option (List Nat)) (seed : Option Nat) :
    Except PyErr (List EdgeId) :=
  if ¬ SCENARIOS.contains scenario then
    .error (.valueError ("Unknown scenario: " ++ scenario))
  else if scenario = "Bridge Collapse" then
    .ok (select_bridge_edges g)
  else if scenario = "Tunnel Closure" then
    .ok (select_tunnel_edges g)
  else if scenario = "Highway Flood" then
    match usgs_flood_polygons with
    | some polys =>
      -- `if usgs_flood_polygons:` — Python truthiness: non-None and nonempty.
      if polys ≠ [] then
        .ok ((g.edges.filter (fun e =>
          polys.any (fun p => ext.intersects e.geom p))).map EdgeData.eid)
      else
        select_highway_edges g
    | none => select_highway_edges g
  else if scenario = "Targeted Attack (Top k%)" then
    .ok (targetedCandidates ext g severity)
  else if scenario = "Random Failure" then
    let all_edges := g.edges.map EdgeData.eid
    let n_remove := max 1 (pyInt (all_edges.length * severity)).toNat
    (ext.shuffle seed all_edges).take n_remove |> .ok
  else
    .ok []

/-! ## simulation.py -/

/-- `SimulationResult`-shaped metrics dict returned by
`simulate_single_shock`. -/
structure ShockResult where
  avg_ratio : ℚ
  median_ratio : ℚ
  pct_disconnected : ℚ
  n_removed_edges : Nat
  n_pairs : Nat
deriving DecidableEq, Repr

/-- One expansion step of directed reachability: add the head of every
edge whose tail is already reached. -/
def reachStep (es : List EdgeData) (S : List Nat) : List Nat :=
  S ++ (es.filter (fun e => decide (e.u ∈ S) && decide (e.v ∉ S))).map
    (fun e => e.v)

/-- Iterated reachability expansion. -/
def reachAux (es : List EdgeData) : Nat → List Nat → List Nat
  | 0, S => S
  | n + 1, S => reachAux es n (reachStep es S)

/-- The nodes reachable from `u` along directed edges: a simple path
visits at most `|nodes|` nodes, so `|nodes|` expansion rounds reach the
fixed point on any well-formed graph. -/
def reachableFrom (g : MultiDiGraph) (u : Nat) : List Nat :=
  reachAux g.edges g.nodes.length [u]

/-- `nx.has_path(G, u, v)`: directed reachability. -/
def hasPathB (g : MultiDiGraph) (u v : Nat) : Bool :=
  decide (v ∈ reachableFrom g u)

/-- The symmetrized edge list, giving weak connectivity as directed
reachability. -/
def symEdges (g : MultiDiGraph) : List EdgeData :=
  g.edges ++ g.edges.map (fun e => { e with u := e.v, v := e.u })

/-- The weakly connected component of `u`, as the sublist of `g.nodes`
weakly reachable from `u` (node order preserved). -/
def weakComponentOf (g : MultiDiGraph) (u : Nat) : List Nat :=
  g.nodes.filter (fun v =>
    decide (v ∈ reachAux (symEdges g) g.nodes.length [u]))

/-- `nx.weakly_connected_components(G)` in iteration order: scan nodes
in order, emitting the component of each not yet covered node. -/
def weakComponents (g : MultiDiGraph) : List (List Nat) :=
  g.nodes.foldl (fun acc v =>
    if acc.any (fun c => decide (v ∈ c)) then acc
    else acc ++ [weakComponentOf g v]) []

/-- `max(components, key=len)`: the first component of maximal size. -/
def chooseMaxByLen (l : List (List Nat)) : List Nat :=
  l.foldl (fun best c => if best.length < c.length then c else best) []

/-- `G.subgraph(comp).copy()`: the nodes of `comp` and every edge with
both endpoints in `comp`. -/
def subgraphOn (g : MultiDiGraph) (comp : List Nat) : MultiDiGraph :=
  ⟨comp, g.edges.filter (fun e => decide (e.u ∈ comp) && decide (e.v ∈ comp))⟩

/-- `_largest_component`: keep the largest weakly connected component
(on an empty graph Python's `max` would raise `ValueError`; the claims
are stated for nonempty graphs). -/
def largestComponent (g : MultiDiGraph) : MultiDiGraph :=
  subgraphOn g (chooseMaxByLen (weakComponents g))

/-- One draw of `rng.choice(nodes, size=2, replace=False)` given raw
generator output `(x, y)` for this call: two distinct indices below
`n`.  Any value of the raw output yields a valid distinct pair, which
is all the claims use of numpy's uniform sampling. -/
def drawDistinct (n : Nat) (xy : Nat × Nat) : Nat × Nat :=
  let i := xy.1 % n
  let j0 := xy.2 % (n - 1)
  (i, if j0 < i then j0 else j0 + 1)

/-- The sampling loop of `sample_od_pairs`: `fuel` is the remaining
attempt budget (`max_attempts - attempts`), `attempts` counts the
generator draws so far (indexing the raw stream `rngPick seed ·`).
A draw from fewer than two nodes raises numpy's `ValueError`. -/
def sampleLoop (rngPick : Option Nat → Nat → Nat × Nat)
    (H : MultiDiGraph) (nodes : List Nat) (seed : Option Nat)
    (n_pairs : Nat) :
    Nat → Nat → List (Nat × Nat) → Except PyErr (List (Nat × Nat))
  | 0, _, pairs => .ok pairs
  | fuel + 1, attempts, pairs =>
    if pairs.length < n_pairs then
      if nodes.length < 2 then
        .error (.valueError
          "Cannot take a larger sample than population when replace is False")
      else
        let ij := drawDistinct nodes.length (rngPick seed attempts)
        let u := nodes.getD ij.1 0
        let v := nodes.getD ij.2 0
        let pairs' := if hasPathB H u v then pairs ++ [(u, v)] else pairs
        sampleLoop rngPick H nodes seed n_pairs fuel (attempts + 1) pairs'
    else .ok pairs

/-- `sample_od_pairs`: sample OD pairs connected inside the largest
weakly connected component; raise `RuntimeError` if none were found. -/
def sample_od_pairs (rngPick : Option Nat → Nat → Nat × Nat)
    (g : MultiDiGraph) (n_pairs : Nat) (seed : Option Nat) :
    Except PyErr (List (Nat × Nat)) :=
  match sampleLoop rngPick (largestComponent g) (largestComponent g).nodes
      seed n_pairs (n_pairs * 20) 0 [] with
  | .error e => .error e
  | .ok pairs =>
    if pairs = [] then
      .error (.runtimeError "Could not sample any connected OD pairs.")
    else .ok pairs

/-- `_weight_attr`: inspect only the first edge's attributes (the loop
breaks after its first iteration), preferring `travel_time`. -/
def weightAttr (g : MultiDiGraph) : String :=
  match g.edges with
  | [] => "length"
  | e :: _ =>
    if e.travel_time.isSome then "travel_time"
    else if e.edge_len.isSome then "length"
    else "length"

/-- The weight networkx reads for an edge under attribute name `w`,
defaulting to `1` when the attribute is absent. -/
def edgeWeight (w : String) (e : EdgeData) : ℚ :=
  if w = "travel_time" then e.travel_time.getD 1 else e.edge_len.getD 1

/-- The cheapest parallel edge from `a` to `b` under weight `w`
(networkx multigraph weighting takes the minimum over keys). -/
def hopWeight (g : MultiDiGraph) (w : String) (a b : Nat) : Option ℚ :=
  ((g.edges.filter (fun e => decide (e.u = a) && decide (e.v = b))).map
    (edgeWeight w)).min?

/-- Total weights of all simple paths from `a` to `t` avoiding `vis`,
with `fuel` bounding the path length. -/
def pathLens (g : MultiDiGraph) (w : String) :
    Nat → Nat → Nat → List Nat → List ℚ
  | 0, a, t, _ => if a = t then [0] else []
  | fuel + 1, a, t, vis =>
    if a = t then [0]
    else
      (((g.edges.map (fun e => (e.u, e.v))).filter
          (fun p => decide (p.1 = a) && decide (p.2 ∉ vis))).map
          (fun p => p.2)).dedup.flatMap
        (fun b =>
          match hopWeight g w a b with
          | none => []
          | some c => (pathLens g w fuel b t (b :: vis)).map (fun d => c + d))

/-- The minimum total weight over simple paths (the value
`nx.astar_path_length` returns when a path exists; with the default
`None` heuristic it is Dijkstra's exact shortest weighted length). -/
def pathMinLen (g : MultiDiGraph) (w : String) (u v : Nat) : ℚ :=
  (pathLens g w g.nodes.length u v [u]).min?.getD 0

/-- `nx.astar_path_length`: the shortest weighted length, or `none`
for the `NetworkXNoPath` exception. -/
def astar_path_length (g : MultiDiGraph) (w : String) (u v : Nat) :
    Option ℚ :=
  if hasPathB g u v then some (pathMinLen g w u v) else none

/-- `G_after.has_edge(u, v, k)`. -/
def hasEdge (g : MultiDiGraph) (id : EdgeId) : Bool :=
  g.edges.any (fun e => e.eid = id)

/-- `G_after.remove_edge(u, v, k)` (keys are unique per `(u, v)` pair
in a networkx multigraph, so filtering removes exactly that edge). -/
def removeEdge (g : MultiDiGraph) (id : EdgeId) : MultiDiGraph :=
  ⟨g.nodes, g.edges.filter (fun e => e.eid ≠ id)⟩

/-- The removal loop of `simulate_single_shock`: remove each listed
edge if present, counting actual removals; absent identifiers are
silently skipped. -/
def removeEdgesCount (g : MultiDiGraph) (ids : List EdgeId) :
    MultiDiGraph × Nat :=
  ids.foldl (fun acc id =>
    if hasEdge acc.1 id then (removeEdge acc.1 id, acc.2 + 1) else acc)
    (g, 0)

/-- `np.mean`. -/
def npMean (l : List ℚ) : ℚ := l.foldl (· + ·) 0 / l.length

/-- Stable ascending insertion for `np.median`'s sort. -/
def insertAsc (x : ℚ) : List ℚ → List ℚ
  | [] => [x]
  | y :: ys => if x ≤ y then x :: y :: ys else y :: insertAsc x ys

/-- Ascending sort. -/
def sortAsc : List ℚ → List ℚ
  | [] => []
  | x :: xs => insertAsc x (sortAsc xs)

/-- `np.median`: middle element of the sorted list, or the average of
the two middle elements for an even count. -/
def npMedian (l : List ℚ) : ℚ :=
  let s := sortAsc l
  if l.length % 2 = 1 then s.getD (l.length / 2) 0
  else (s.getD (l.length / 2 - 1) 0 + s.getD (l.length / 2) 0) / 2

/-- The per-pair body of the measurement loop: skip the pair when the
baseline has no path; otherwise append either the ratio or the penalty,
incrementing the disconnection counter in the latter case. -/
def pairStep (gB gA : MultiDiGraph) (w : String) (penalty : ℚ)
    (acc : List ℚ × Nat) (p : Nat × Nat) : List ℚ × Nat :=
  match astar_path_length gB w p.1 p.2 with
  | none => acc
  | some baseline =>
    match astar_path_length gA w p.1 p.2 with
    | some damaged => (acc.1 ++ [damaged / baseline], acc.2)
    | none => (acc.1 ++ [penalty], acc.2 + 1)

/-- Lines 104–137 of `simulation.py`: given the sampled pairs, measure
ratios on the damaged copy and aggregate. -/
def shockAggregate (gB gA : MultiDiGraph) (penalty : ℚ) (n_removed : Nat)
    (pairs : List (Nat × Nat)) : ShockResult :=
  let weight := weightAttr gB
  let rd := pairs.foldl (pairStep gB gA weight penalty) ([], 0)
  if rd.1 = [] then
    ⟨penalty, penalty, 100, n_removed, pairs.length⟩
  else
    ⟨npMean rd.1, npMedian rd.1, 100 * (rd.2 : ℚ) / (pairs.length : ℚ),
     n_removed, pairs.length⟩

/-- `simulate_single_shock`.  The second component of the result is the
final state of the caller's network handle: damage is applied to the
copy `G_after` only, and `G_before` aliases the input. -/
def simulate_single_shock (rngPick : Option Nat → Nat → Nat × Nat)
    (g : MultiDiGraph) (edge_ids_to_remove : List EdgeId)
    (n_pairs : Nat) (penalty_ratio : ℚ) (seed : Option Nat) :
    Except PyErr ShockResult × MultiDiGraph :=
  let G_before := g
  let ga := removeEdgesCount G_before edge_ids_to_remove
  if ga.2 = 0 then
    (.ok ⟨1, 1, 0, 0, 0⟩, G_before)
  else
    match sample_od_pairs rngPick G_before n_pairs seed with
    | .error e => (.error e, G_before)
    | .ok pairs =>
      (.ok (shockAggregate G_before ga.1 penalty_ratio ga.2 pairs), G_before)

/-! ## experiments.py -/

/-- One result row of `run_progressive_damage_experiment`. -/
structure ExperimentRow where
  city : String
  scenario : String
  severity : ℚ
  run : Nat
  metrics : ShockResult
deriving DecidableEq, Repr

/-- One `(severity, run)` cell: select removal targets and simulate,
passing the same derived seed to both. -/
def experimentCell (ext : SelectExt) (rngPick : Option Nat → Nat → Nat × Nat)
    (city : String) (g : MultiDiGraph) (scenario : String) (sev : ℚ)
    (run : Nat) (n_pairs : Nat) (polys : Option (List Nat)) (seed : Nat) :
    Except PyErr ExperimentRow :=
  match select_edges_for_scenario ext g scenario sev polys (some seed) with
  | .error e => .error e
  | .ok edge_ids =>
    match (simulate_single_shock rngPick g edge_ids n_pairs 5 (some seed)).1
        with
    | .error e => .error e
    | .ok metrics => .ok ⟨city, scenario, sev, run, metrics⟩

/-- The inner repeat loop: runs `fuel` repeats starting at repeat index
`run`, for severity index `i`. -/
def runRepeats (ext : SelectExt) (rngPick : Option Nat → Nat → Nat × Nat)
    (city : String) (g : MultiDiGraph) (scenario : String) (sev : ℚ)
    (n_pairs : Nat) (polys : Option (List Nat)) (base_seed i : Nat) :
    Nat → Nat → Except PyErr (List ExperimentRow)
  | 0, _ => .ok []
  | fuel + 1, run =>
    match experimentCell ext rngPick city g scenario sev run n_pairs
        polys (base_seed + i * 100 + run) with
    | .error e => .error e
    | .ok row =>
      match runRepeats ext rngPick city g scenario sev n_pairs polys
          base_seed i fuel (run + 1) with
      | .error e => .error e
      | .ok rest => .ok (row :: rest)

/-- The outer severity loop, starting at severity index `i`. -/
def runSeverities (ext : SelectExt) (rngPick : Option Nat → Nat → Nat × Nat)
    (city : String) (g : MultiDiGraph) (scenario : String)
    (n_pairs runs_per_severity : Nat) (polys : Option (List Nat))
    (base_seed : Nat) : List ℚ → Nat → Except PyErr (List ExperimentRow)
  | [], _ => .ok []
  | sev :: rest, i =>
    match runRepeats ext rngPick city g scenario sev n_pairs polys
        base_seed i runs_per_severity 0 with
    | .error e => .error e
    | .ok rows =>
      match runSeverities ext rngPick city g scenario n_pairs
          runs_per_severity polys base_seed rest (i + 1) with
      | .error e => .error e
      | .ok more => .ok (rows ++ more)

/-- `run_progressive_damage_experiment` on an already loaded graph
(graph acquisition is the external `GraphProvider` collaborator):
for severity index `i` and repeat `run`, derive
`seed = base_seed + i*100 + run` and collect one row per cell, in
severity order then repeat order. -/
def run_progressive_damage_experiment (ext : SelectExt)
    (rngPick : Option Nat → Nat → Nat × Nat) (city : String)
    (g : MultiDiGraph) (scenario : String) (severities : List ℚ)
    (n_pairs runs_per_severity : Nat) (polys : Option (List Nat))
    (base_seed : Nat) : Except PyErr (List ExperimentRow) :=
  runSeverities ext rngPick city g scenario n_pairs runs_per_severity polys
    base_seed severities 0

/-! ## Helper lemmas -/

theorem removeEdgesCount_absent (g : MultiDiGraph) (ids : List EdgeId)
    (h : ∀ id ∈ ids, hasEdge g id = false) :
    removeEdgesCount g ids = (g, 0) := by
  unfold removeEdgesCount
  induction ids with
  | nil => rfl
  | cons id rest ih =>
    have hid : hasEdge g id = false := h id (List.mem_cons_self id rest)
    simp only [List.foldl_cons, hid, Bool.false_eq_true, if_false]
    exact ih (fun i hi => h i (List.mem_cons_of_mem id hi))

theorem pairStep_foldl_none (gB gA : MultiDiGraph) (w : String) (pen : ℚ)
    (pairs : List (Nat × Nat)) (acc : List ℚ × Nat)
    (h : ∀ p ∈ pairs, astar_path_length gB w p.1 p.2 = none) :
    pairs.foldl (pairStep gB gA w pen) acc = acc := by
  induction pairs generalizing acc with
  | nil => rfl
  | cons p rest ih =>
    have hp := h p (List.mem_cons_self p rest)
    simp only [List.foldl_cons]
    rw [show pairStep gB gA w pen acc p = acc by
      unfold pairStep; rw [hp]]
    exact ih acc (fun q hq => h q (List.mem_cons_of_mem p hq))

/-! ## Claim theorems -/

/-- C9: the shock simulation never mutates its input network: all edge
removals are applied to the private copy `G_after` only, so the
caller's network handle after the call is exactly the input graph —
node set, edge set and edge attributes included. -/
theorem simulate_single_shock_preserves_input
    (rngPick : Option Nat → Nat → Nat × Nat) (g : MultiDiGraph)
    (ids : List EdgeId) (n_pairs : Nat) (penalty_ratio : ℚ)
    (seed : Option Nat) :
    (simulate_single_shock rngPick g ids n_pairs penalty_ratio seed).2 = g ∧
    (simulate_single_shock rngPick g ids n_pairs penalty_ratio seed).2.nodes
      = g.nodes ∧
    (simulate_single_shock rngPick g ids n_pairs penalty_ratio seed).2.edges
      = g.edges := by
  have h2 : (simulate_single_shock rngPick g ids n_pairs penalty_ratio
      seed).2 = g := by
    unfold simulate_single_shock
    dsimp only
    split
    · rfl
    · split <;> rfl
  exact ⟨h2, by rw [h2], by rw [h2]⟩

/-- C6: if no listed edge identifier is present in the network (absent
identifiers being silently skipped, never an error), the simulation
short-circuits to the exact neutral result without consulting the
random generator or sampling any OD pair: the result is the same for
every generator and every seed. -/
theorem simulate_single_shock_noop
    (rngPick : Option Nat → Nat → Nat × Nat) (g : MultiDiGraph)
    (ids : List EdgeId) (n_pairs : Nat) (penalty_ratio : ℚ)
    (seed : Option Nat)
    (h : ∀ id ∈ ids, hasEdge g id = false) :
    simulate_single_shock rngPick g ids n_pairs penalty_ratio seed
      = (.ok ⟨1, 1, 0, 0, 0⟩, g) := by
  unfold simulate_single_shock
  dsimp only
  rw [removeEdgesCount_absent g ids h]
  rfl

/-- C6 witness: a concrete network with one edge and a removal list
naming only an absent identifier gives the neutral result. -/
theorem simulate_single_shock_noop_witness :
    simulate_single_shock (fun _ _ => (0, 0))
      ⟨[1, 2], [{ u := 1, v := 2, k := 0 }]⟩ [(9, 9, 9)] 40 5 none
      = (.ok ⟨1, 1, 0, 0, 0⟩, ⟨[1, 2], [{ u := 1, v := 2, k := 0 }]⟩) :=
  simulate_single_shock_noop _ _ _ _ _ _ (by decide)

/-- C10: with no `highway` attribute column, the Highway Flood scenario
without hazard geometries — `usgs_flood_polygons` either absent or an
empty set — raises `KeyError` from the tag-based fallback
`select_highway_edges`, while the Bridge Collapse and Tunnel Closure
selectors return an empty list when their tag column is absent. -/
theorem highway_flood_missing_column_raises
    (ext : SelectExt) (g gb gt : MultiDiGraph) (sev sevb sevt : ℚ)
    (seed seedb seedt : Option Nat)
    (hg : g.edges ≠ []) (hgb : gb.edges ≠ []) (hgt : gt.edges ≠ [])
    (hH : hasCol g (fun e => e.highway) = false)
    (hb : hasCol gb (fun e => e.bridge) = false)
    (ht : hasCol gt (fun e => e.tunnel) = false) :
    select_edges_for_scenario ext g "Highway Flood" sev none seed
      = .error (.keyError "highway") ∧
    select_edges_for_scenario ext g "Highway Flood" sev (some []) seed
      = .error (.keyError "highway") ∧
    select_edges_for_scenario ext gb "Bridge Collapse" sevb none seedb
      = .ok [] ∧
    select_edges_for_scenario ext gt "Tunnel Closure" sevt none seedt
      = .ok [] := by
  refine ⟨?_, ?_, ?_, ?_⟩
  · show select_highway_edges g = _
    simp [select_highway_edges, hH]
  · show select_highway_edges g = _
    simp [select_highway_edges, hH]
  · show Except.ok (select_bridge_edges gb) = _
    simp [select_bridge_edges, hb]
  · show Except.ok (select_tunnel_edges gt) = _
    simp [select_tunnel_edges, ht]

/-- C10 witness: a one-edge network with a `bridge` tag but no
`highway` (resp. no `bridge`, no `tunnel`) column exercises all four
conjuncts. -/
theorem highway_flood_missing_column_raises_witness :
    select_edges_for_scenario
      ⟨fun _ l => l, fun l => l.map (fun p => (p, 1)), fun _ _ => false⟩
      ⟨[1, 2], [{ u := 1, v := 2, k := 0, bridge := some (.str "yes") }]⟩
      "Highway Flood" (1/2) none none = .error (.keyError "highway") ∧
    select_edges_for_scenario
      ⟨fun _ l => l, fun l => l.map (fun p => (p, 1)), fun _ _ => false⟩
      ⟨[1, 2], [{ u := 1, v := 2, k := 0, highway := some (.str "primary") }]⟩
      "Bridge Collapse" (1/2) none none = .ok [] := by
  have h := highway_flood_missing_column_raises
    ⟨fun _ l => l, fun l => l.map (fun p => (p, 1)), fun _ _ => false⟩
    ⟨[1, 2], [{ u := 1, v := 2, k := 0, bridge := some (.str "yes") }]⟩
    ⟨[1, 2], [{ u := 1, v := 2, k := 0, highway := some (.str "primary") }]⟩
    ⟨[1, 2], [{ u := 1, v := 2, k := 0, highway := some (.str "primary") }]⟩
    (1/2) (1/2) (1/2) none none none
    (by decide) (by decide) (by decide) (by decide) (by decide) (by decide)
  exact ⟨h.1, h.2.2.1⟩

/-- C8: for a retained OD pair (baseline length `b`, with `b ≠ 0` — a
zero-length baseline would raise `ZeroDivisionError` in the source
rather than record a ratio), an equal damaged length records exactly
the ratio `1.0` with the disconnection counter untouched, and an
unreachable damaged pair records exactly the penalty constant and
increments the disconnection counter by one. -/
theorem pair_ratio_one_and_penalty
    (gB gA : MultiDiGraph) (w : String) (pen : ℚ) (acc : List ℚ × Nat)
    (u v : Nat) (b : ℚ)
    (hbase : astar_path_length gB w u v = some b) (hb0 : b ≠ 0) :
    (astar_path_length gA w u v = some b →
      pairStep gB gA w pen acc (u, v) = (acc.1 ++ [1], acc.2)) ∧
    (astar_path_length gA w u v = none →
      pairStep gB gA w pen acc (u, v) = (acc.1 ++ [pen], acc.2 + 1)) := by
  constructor
  · intro hd
    simp only [pairStep, hbase, hd]
    rw [div_self hb0]
  · intro hd
    simp only [pairStep, hbase, hd]

/-- C8 witness: on a concrete one-edge network with `travel_time = 2`,
an undamaged copy records ratio `1` and a fully damaged copy records
the penalty `5` with the counter incremented. -/
theorem pair_ratio_one_and_penalty_witness :
    pairStep ⟨[1, 2], [{ u := 1, v := 2, k := 0, travel_time := some 2 }]⟩
      ⟨[1, 2], [{ u := 1, v := 2, k := 0, travel_time := some 2 }]⟩
      "travel_time" 5 ([], 0) (1, 2) = ([1], 0) ∧
    pairStep ⟨[1, 2], [{ u := 1, v := 2, k := 0, travel_time := some 2 }]⟩
      ⟨[1, 2], []⟩ "travel_time" 5 ([], 0) (1, 2) = ([5], 1) := by
  have hbase : astar_path_length
      ⟨[1, 2], [{ u := 1, v := 2, k := 0, travel_time := some 2 }]⟩
      "travel_time" 1 2 = some 2 := by
    simp [astar_path_length, hasPathB, reachableFrom, reachAux, reachStep,
      pathMinLen, pathLens, hopWeight, edgeWeight, List.min?]
  have hnone : astar_path_length ⟨[1, 2], []⟩ "travel_time" 1 2 = none := by
    simp [astar_path_length, hasPathB, reachableFrom, reachAux, reachStep]
  constructor
  · exact (pair_ratio_one_and_penalty _ _ _ 5 ([], 0) 1 2 2 hbase
      (by norm_num)).1 hbase
  · exact (pair_ratio_one_and_penalty _ _ _ 5 ([], 0) 1 2 2 hbase
      (by norm_num)).2 hnone

/-- C4 counterexample: an aggregation in which the single sampled pair
has no baseline path reaches the saturated branch and returns
`n_pairs = 1` — the number of sampled pairs — not `n_pairs = 0` as the
claim states. -/
theorem saturated_result_n_pairs_counterexample :
    shockAggregate
      ⟨[1, 2], [{ u := 1, v := 2, k := 0, travel_time := some 2 }]⟩
      ⟨[1, 2], []⟩ 5 1 [(2, 1)] = ⟨5, 5, 100, 1, 1⟩ ∧
    (shockAggregate
      ⟨[1, 2], [{ u := 1, v := 2, k := 0, travel_time := some 2 }]⟩
      ⟨[1, 2], []⟩ 5 1 [(2, 1)]).n_pairs ≠ 0 := by
  have h : shockAggregate
      ⟨[1, 2], [{ u := 1, v := 2, k := 0, travel_time := some 2 }]⟩
      ⟨[1, 2], []⟩ 5 1 [(2, 1)] = ⟨5, 5, 100, 1, 1⟩ := by
    simp [shockAggregate, pairStep, astar_path_length, hasPathB,
      reachableFrom, reachAux, reachStep, weightAttr]
  exact ⟨h, by rw [h]; decide⟩

/-- C4 amended: when at least one edge was removed and every sampled
pair lacks a baseline path (so zero pairs are retained), the
aggregation returns the penalty constant for both mean and median,
`pct_disconnected = 100` and the actual removed-edge count — but
`n_pairs` is the number of sampled pairs, not `0`. -/
theorem shockAggregate_saturated (gB gA : MultiDiGraph) (pen : ℚ)
    (nrem : Nat) (pairs : List (Nat × Nat)) (hrem : nrem ≠ 0)
    (h : ∀ p ∈ pairs,
      astar_path_length gB (weightAttr gB) p.1 p.2 = none) :
    shockAggregate gB gA pen nrem pairs
      = ⟨pen, pen, 100, nrem, pairs.length⟩ := by
  unfold shockAggregate
  dsimp only
  rw [pairStep_foldl_none gB gA (weightAttr gB) pen pairs ([], 0) h]
  rfl

/-- C4 amended witness: two sampled pairs, both without a baseline
path, and penalty `7`. -/
theorem shockAggregate_saturated_witness :
    shockAggregate
      ⟨[1, 2], [{ u := 1, v := 2, k := 0, travel_time := some 2 }]⟩
      ⟨[1, 2], []⟩ 7 1 [(2, 1), (2, 1)] = ⟨7, 7, 100, 1, 2⟩ :=
  shockAggregate_saturated _ _ 7 1 [(2, 1), (2, 1)] (by decide)
    (by intro p hp
        have : p = (2, 1) := by
          rcases List.mem_cons.1 hp with h | h
          · exact h
          · simpa using h
        subst this
        simp [astar_path_length, hasPathB, reachableFrom, reachAux,
          reachStep])

/-- C1 counterexample: three directed edges and severity `1/2` under
Random Failure (identity permutation as the concrete seeded shuffle):
the code removes `max(1, int(3 * 0.5)) = 1` edge, not
`max(1, ceil(3 * 0.5)) = 2` as the claim states. -/
theorem random_failure_ceil_counterexample :
    select_edges_for_scenario
      ⟨fun _ l => l, fun l => l.map (fun p => (p, 1)), fun _ _ => false⟩
      ⟨[1, 2, 3], [{ u := 1, v := 2, k := 0 }, { u := 2, v := 3, k := 0 },
        { u := 3, v := 2, k := 0 }]⟩
      "Random Failure" (1/2) none (some 7) = .ok [(1, 2, 0)] ∧
    (⟨[1, 2, 3], [{ u := 1, v := 2, k := 0 }, { u := 2, v := 3, k := 0 },
        { u := 3, v := 2, k := 0 }]⟩ : MultiDiGraph).edges.length = 3 ∧
    ([(1, 2, 0)] : List EdgeId).length
      ≠ max 1 (Int.toNat ⌈(3 : ℚ) * (1/2)⌉) := by
  have e2 : pyInt ((([(1, 2, 0), (2, 3, 0), (3, 2, 0)] :
      List EdgeId).length : ℚ) * (1/2)) = 1 := by
    norm_num [pyInt]
  refine ⟨?_, rfl, ?_⟩
  · show Except.ok (([(1, 2, 0), (2, 3, 0), (3, 2, 0)] : List EdgeId).take
      (max 1 (pyInt ((([(1, 2, 0), (2, 3, 0), (3, 2, 0)] :
        List EdgeId).length : ℚ) * (1/2))).toNat)) = _
    rw [e2]
    rfl
  · have hc : ⌈(3 : ℚ) * (1/2)⌉ = -⌊-((3 : ℚ) * (1/2))⌋ := by
      rw [Int.floor_neg]; ring_nf
    rw [hc]
    norm_num
    decide

/-- C1 amended: on a network with `E ≥ 1` total edges and severity
`s ∈ [0,1]`, Random Failure returns exactly `max(1, int(s*E))` edge
identifiers — the code truncates `s*E` rather than taking its ceiling
— and, the seeded generator being a deterministic function of the
seed, a repeated call with the same network, severity and seed returns
the identical list in the identical order. -/
theorem random_failure_removal_count
    (ext : SelectExt) (g : MultiDiGraph) (sev : ℚ)
    (polys : Option (List Nat)) (seed : Option Nat)
    (hsh : ∀ s l, (ext.shuffle s l).length = l.length)
    (hE : g.edges ≠ []) (h0 : 0 ≤ sev) (h1 : sev ≤ 1) :
    (∃ l, select_edges_for_scenario ext g "Random Failure" sev polys seed
        = .ok l ∧
      l.length = max 1 (pyInt ((g.edges.length : ℚ) * sev)).toNat) ∧
    (∀ seed', seed' = seed →
      select_edges_for_scenario ext g "Random Failure" sev polys seed'
        = select_edges_for_scenario ext g "Random Failure" sev polys seed) := by
  constructor
  · refine ⟨(ext.shuffle seed (g.edges.map EdgeData.eid)).take
      (max 1 (pyInt (((g.edges.map EdgeData.eid).length : ℚ) * sev)).toNat),
      rfl, ?_⟩
    have hlen : (g.edges.map EdgeData.eid).length = g.edges.length :=
      List.length_map _ _
    have hnn : 0 ≤ (g.edges.length : ℚ) * sev :=
      mul_nonneg (by positivity) h0
    have hfl : ⌊(g.edges.length : ℚ) * sev⌋ ≤ (g.edges.length : Int) := by
      have hle : (g.edges.length : ℚ) * sev ≤ (g.edges.length : ℚ) := by
        calc (g.edges.length : ℚ) * sev
            ≤ (g.edges.length : ℚ) * 1 :=
              mul_le_mul_of_nonneg_left h1 (by positivity)
          _ = (g.edges.length : ℚ) := mul_one _
      calc ⌊(g.edges.length : ℚ) * sev⌋ ≤ ⌊(g.edges.length : ℚ)⌋ :=
            Int.floor_le_floor hle
        _ = (g.edges.length : Int) := Int.floor_natCast _
    have hpy : pyInt ((g.edges.length : ℚ) * sev)
        = ⌊(g.edges.length : ℚ) * sev⌋ := by
      unfold pyInt; rw [if_pos hnn]
    have hE1 : 1 ≤ g.edges.length := List.length_pos.mpr hE
    have hle : max 1 (pyInt ((g.edges.length : ℚ) * sev)).toNat
        ≤ g.edges.length := by
      refine max_le hE1 ?_
      rw [hpy]
      exact Int.toNat_le.mpr hfl
    rw [hlen, List.length_take, hsh seed (g.edges.map EdgeData.eid), hlen]
    exact min_eq_left hle
  · intro seed' hs
    rw [hs]

/-- C1 amended witness: 15 edges at severity `1/5` with an identity
shuffle remove exactly `max(1, int(3.0)) = 3` edges; the repeated call
agrees. -/
theorem random_failure_removal_count_witness :
    (∃ l, select_edges_for_scenario
        ⟨fun _ l => l, fun l => l.map (fun p => (p, 1)), fun _ _ => false⟩
        ⟨[1, 2, 3, 4, 5, 6],
          [{ u := 1, v := 2, k := 0 }, { u := 2, v := 3, k := 0 },
           { u := 3, v := 4, k := 0 }, { u := 4, v := 5, k := 0 },
           { u := 5, v := 6, k := 0 }, { u := 6, v := 1, k := 0 },
           { u := 2, v := 1, k := 0 }, { u := 3, v := 2, k := 0 },
           { u := 4, v := 3, k := 0 }, { u := 5, v := 4, k := 0 },
           { u := 6, v := 5, k := 0 }, { u := 1, v := 6, k := 0 },
           { u := 1, v := 3, k := 0 }, { u := 3, v := 5, k := 0 },
           { u := 5, v := 1, k := 0 }]⟩
        "Random Failure" (1/5) none (some 7) = .ok l ∧
      l.length = max 1 (pyInt ((15 : ℚ) * (1/5))).toNat) ∧
    max 1 (pyInt ((15 : ℚ) * (1/5))).toNat = 3 := by
  have h := random_failure_removal_count
    ⟨fun _ l => l, fun l => l.map (fun p => (p, 1)), fun _ _ => false⟩
    ⟨[1, 2, 3, 4, 5, 6],
      [{ u := 1, v := 2, k := 0 }, { u := 2, v := 3, k := 0 },
       { u := 3, v := 4, k := 0 }, { u := 4, v := 5, k := 0 },
       { u := 5, v := 6, k := 0 }, { u := 6, v := 1, k := 0 },
       { u := 2, v := 1, k := 0 }, { u := 3, v := 2, k := 0 },
       { u := 4, v := 3, k := 0 }, { u := 5, v := 4, k := 0 },
       { u := 6, v := 5, k := 0 }, { u := 1, v := 6, k := 0 },
       { u := 1, v := 3, k := 0 }, { u := 3, v := 5, k := 0 },
       { u := 5, v := 1, k := 0 }]⟩
    (1/5) none (some 7) (fun _ _ => rfl) (by decide) (by norm_num)
    (by norm_num)
  obtain ⟨l, hsel, hlen⟩ := h.1
  refine ⟨⟨l, hsel, ?_⟩, by norm_num [pyInt]; decide⟩
  rw [hlen]
  norm_num

theorem insertDesc_perm (x : (Nat × Nat) × ℚ) (l : List ((Nat × Nat) × ℚ)) :
    (insertDesc x l).Perm (x :: l) := by
  induction l with
  | nil => exact List.Perm.refl _
  | cons y ys ih =>
    unfold insertDesc
    split
    · exact List.Perm.refl _
    · exact (ih.cons y).trans (List.Perm.swap x y ys)

theorem sortDescBySnd_perm (l : List ((Nat × Nat) × ℚ)) :
    (sortDescBySnd l).Perm l := by
  induction l with
  | nil => exact List.Perm.refl _
  | cons x xs ih =>
    exact (insertDesc_perm x (sortDescBySnd xs)).trans (ih.cons x)

theorem sortDescBySnd_length (l : List ((Nat × Nat) × ℚ)) :
    (sortDescBySnd l).length = l.length :=
  (sortDescBySnd_perm l).length_eq

theorem undirectedEdgesAux_norm_nodup (es : List EdgeData) :
    ∀ acc, (acc.map normPair).Nodup →
      ((undirectedEdgesAux es acc).map normPair).Nodup := by
  induction es with
  | nil => intro acc h; exact h
  | cons e es ih =>
    intro acc h
    unfold undirectedEdgesAux
    split
    · exact ih acc h
    · rename_i hguard
      apply ih
      rw [List.map_append]
      refine List.Nodup.append h (by simp) ?_
      intro a ha hb
      simp only [List.map_cons, List.map_nil, List.mem_singleton] at hb
      subst hb
      obtain ⟨p, hp, hpe⟩ := List.mem_map.1 ha
      exact hguard (List.any_eq_true.mpr ⟨p, hp, decide_eq_true hpe⟩)

theorem undirectedEdges_norm_nodup (g : MultiDiGraph) :
    ((undirectedEdges g).map normPair).Nodup :=
  undirectedEdgesAux_norm_nodup g.edges [] (by simp)

/-- C3 counterexample: on `gPath3` (three directed edges on two
unordered endpoint pairs) at severity `1/2`, the code selects the top
`max(1, int(2 * 0.5)) = 1` unordered pair and removes one edge, while
the claim's `max(1, ceil(0.5 * 3)) = 2` pairs would expand to all
three edges. -/
theorem targeted_attack_ceil_counterexample :
    select_edges_for_scenario extW gPath3 "Targeted Attack (Top k%)" (1/2)
      none none = .ok [(1, 2, 0)] ∧
    targetedAttackSpecClaim extW gPath3 (1/2)
      = [(1, 2, 0), (2, 3, 0), (3, 2, 0)] ∧
    ([(1, 2, 0)] : List EdgeId) ≠ [(1, 2, 0), (2, 3, 0), (3, 2, 0)] := by
  refine ⟨?_, ?_, by decide⟩
  · show Except.ok (targetedCandidates extW gPath3 (1/2)) = _
    have h2 : targetedNTop extW gPath3 (1/2) = 1 := by
      unfold targetedNTop
      rw [show (targetedSorted extW gPath3).length = 2 by decide]
      norm_num [pyInt]
    have htp : targetedTopPairs extW gPath3 (1/2) = [(1, 2)] := by
      unfold targetedTopPairs
      rw [h2]
      decide
    unfold targetedCandidates
    rw [htp]
    exact congrArg Except.ok (by decide)
  · unfold targetedAttackSpecClaim
    rw [show max 1 (Int.toNat ⌈(gPath3.edges.length : ℚ) * (1/2)⌉) = 2 by
      rw [show ((gPath3.edges.length : ℚ)) = 3 by decide]
      rw [show ⌈(3 : ℚ) * (1/2)⌉ = -⌊-((3 : ℚ) * (1/2))⌋ by
        rw [Int.floor_neg]; ring_nf]
      norm_num
      decide]
    decide

/-- C3 amended: for severity in `(0,1]` and a nonempty undirected edge
set, the Targeted Attack scenario selects the top
`max(1, int(severity × U))` unordered node pairs — truncation, of
severity times the count `U` of *unordered* endpoint pairs of the
simplified graph, not the ceiling of severity times the directed edge
count — hence at least one pair; the returned removal set is exactly
the directed/parallel edges whose endpoint pair (in either order) is
among the selected pairs. -/
theorem targeted_attack_selection
    (ext : SelectExt) (g : MultiDiGraph) (sev : ℚ)
    (polys : Option (List Nat)) (seed : Option Nat)
    (hbet : ∀ ues, (ext.bet ues).map Prod.fst = ues)
    (hU : undirectedEdges g ≠ []) (h0 : 0 < sev) (h1 : sev ≤ 1) :
    select_edges_for_scenario ext g "Targeted Attack (Top k%)" sev polys seed
      = .ok (targetedCandidates ext g sev) ∧
    (targetedTopPairs ext g sev).length
      = max 1 (pyInt (((undirectedEdges g).length : ℚ) * sev)).toNat ∧
    (targetedTopPairs ext g sev).Nodup ∧
    1 ≤ (targetedTopPairs ext g sev).length ∧
    (∀ id, id ∈ targetedCandidates ext g sev ↔
      ∃ e ∈ g.edges, e.eid = id ∧
        normPair (e.u, e.v) ∈ targetedTopPairs ext g sev) := by
  have hlen : (targetedSorted ext g).length = (undirectedEdges g).length := by
    unfold targetedSorted
    rw [sortDescBySnd_length]
    have h := congrArg List.length (hbet (undirectedEdges g))
    simpa using h
  have hU1 : 1 ≤ (undirectedEdges g).length := List.length_pos.mpr hU
  have hnn : 0 ≤ ((undirectedEdges g).length : ℚ) * sev :=
    mul_nonneg (by positivity) h0.le
  have hpy : pyInt (((undirectedEdges g).length : ℚ) * sev)
      = ⌊((undirectedEdges g).length : ℚ) * sev⌋ := by
    unfold pyInt; rw [if_pos hnn]
  have hfl : ⌊((undirectedEdges g).length : ℚ) * sev⌋
      ≤ ((undirectedEdges g).length : Int) := by
    have hle2 : ((undirectedEdges g).length : ℚ) * sev
        ≤ ((undirectedEdges g).length : ℚ) := by
      calc ((undirectedEdges g).length : ℚ) * sev
          ≤ ((undirectedEdges g).length : ℚ) * 1 :=
            mul_le_mul_of_nonneg_left h1 (by positivity)
        _ = ((undirectedEdges g).length : ℚ) := mul_one _
    calc ⌊((undirectedEdges g).length : ℚ) * sev⌋
        ≤ ⌊((undirectedEdges g).length : ℚ)⌋ := Int.floor_le_floor hle2
      _ = ((undirectedEdges g).length : Int) := Int.floor_natCast _
  have hle : max 1 (pyInt (((undirectedEdges g).length : ℚ) * sev)).toNat
      ≤ (undirectedEdges g).length := by
    refine max_le hU1 ?_
    rw [hpy]
    exact Int.toNat_le.mpr hfl
  have hntop : targetedNTop ext g sev
      = max 1 (pyInt (((undirectedEdges g).length : ℚ) * sev)).toNat := by
    unfold targetedNTop
    rw [hlen]
  have hlen2 : (targetedTopPairs ext g sev).length
      = max 1 (pyInt (((undirectedEdges g).length : ℚ) * sev)).toNat := by
    unfold targetedTopPairs
    rw [List.length_map, List.length_take, hntop, hlen]
    exact min_eq_left hle
  refine ⟨rfl, hlen2, ?_, ?_, ?_⟩
  · have hperm : ((targetedSorted ext g).map (fun kv => normPair kv.1)).Perm
        ((undirectedEdges g).map normPair) := by
      have hp : (targetedSorted ext g).Perm (ext.bet (undirectedEdges g)) :=
        sortDescBySnd_perm _
      have hm := hp.map (fun kv => normPair kv.1)
      rw [show (ext.bet (undirectedEdges g)).map (fun kv => normPair kv.1)
          = ((ext.bet (undirectedEdges g)).map Prod.fst).map normPair by
        rw [List.map_map]; rfl] at hm
      rw [hbet] at hm
      exact hm
    have hnd : ((targetedSorted ext g).map (fun kv => normPair kv.1)).Nodup :=
      hperm.nodup_iff.mpr (undirectedEdges_norm_nodup g)
    unfold targetedTopPairs
    rw [List.map_take]
    exact (List.take_sublist _ _).nodup hnd
  · rw [hlen2]
    exact le_max_left _ _
  · intro id
    unfold targetedCandidates
    simp only [List.mem_filterMap]
    constructor
    · rintro ⟨e, he, hf⟩
      by_cases hc : normPair (e.u, e.v) ∈ targetedTopPairs ext g sev
      · rw [if_pos hc] at hf
        exact ⟨e, he, Option.some.inj hf, hc⟩
      · rw [if_neg hc] at hf
        cases hf
    · rintro ⟨e, he, hid, hc⟩
      exact ⟨e, he, by rw [if_pos hc, hid]⟩

/-- C3 amended witness: on `gPath3` at severity `1`, the selection is
exactly the code's candidate set and the selected-pair count matches
`max(1, int(1 × U))`. -/
theorem targeted_attack_selection_witness :
    select_edges_for_scenario extW gPath3 "Targeted Attack (Top k%)" 1
      none none = .ok (targetedCandidates extW gPath3 1) ∧
    (targetedTopPairs extW gPath3 1).length
      = max 1 (pyInt (((undirectedEdges gPath3).length : ℚ) * 1)).toNat := by
  have h := targeted_attack_selection extW gPath3 1 none none
    (by intro ues
        show List.map Prod.fst (ues.map
          (fun p => (p, if p = (1, 2) then (2:ℚ) else 1))) = ues
        rw [List.map_map]
        rw [show (Prod.fst ∘ fun p : Nat × Nat =>
          (p, if p = (1, 2) then (2:ℚ) else 1)) = fun p => p by funext p; rfl]
        rw [List.map_id'])
    (by decide) (by norm_num) (le_refl 1)
  exact ⟨h.1, h.2.1⟩

theorem drawDistinct_spec (n : Nat) (hn : 2 ≤ n) (xy : Nat × Nat) :
    (drawDistinct n xy).1 < n ∧ (drawDistinct n xy).2 < n ∧
      (drawDistinct n xy).1 ≠ (drawDistinct n xy).2 := by
  unfold drawDistinct
  have hn0 : 0 < n := by omega
  have hn1 : 0 < n - 1 := by omega
  have hi : xy.1 % n < n := Nat.mod_lt _ hn0
  have hj0 : xy.2 % (n - 1) < n - 1 := Nat.mod_lt _ hn1
  by_cases hc : xy.2 % (n - 1) < xy.1 % n
  · simp only [hc, if_pos]
    exact ⟨hi, by omega, by omega⟩
  · simp only [hc, if_neg, if_false]
    exact ⟨hi, by omega, by omega⟩

theorem getD_ne_of_nodup (l : List Nat) (hnd : l.Nodup) (i j : Nat)
    (hi : i < l.length) (hj : j < l.length) (hij : i ≠ j) :
    l.getD i 0 ≠ l.getD j 0 := by
  rw [List.getD_eq_getElem l 0 hi, List.getD_eq_getElem l 0 hj]
  intro h
  exact hij (List.Nodup.getElem_inj_iff hnd |>.mp h)

theorem weakComponentOf_sublist (g : MultiDiGraph) (u : Nat) :
    (weakComponentOf g u).Sublist g.nodes :=
  List.filter_sublist _

theorem weakComponents_mem_nodup (g : MultiDiGraph) (hnd : g.nodes.Nodup) :
    ∀ c ∈ weakComponents g, c.Nodup := by
  unfold weakComponents
  have aux : ∀ (l : List Nat) (acc : List (List Nat)),
      (∀ c ∈ acc, c.Nodup) →
      ∀ c ∈ l.foldl (fun acc v =>
        if acc.any (fun c => decide (v ∈ c)) then acc
        else acc ++ [weakComponentOf g v]) acc, c.Nodup := by
    intro l
    induction l with
    | nil => intro acc h c hc; exact h c hc
    | cons v vs ih =>
      intro acc h c hc
      simp only [List.foldl_cons] at hc
      by_cases hv : acc.any (fun c => decide (v ∈ c))
      · rw [if_pos hv] at hc
        exact ih acc h c hc
      · rw [if_neg hv] at hc
        refine ih _ ?_ c hc
        intro c' hc'
        rcases List.mem_append.1 hc' with h1 | h1
        · exact h c' h1
        · rw [List.mem_singleton.1 h1]
          exact (weakComponentOf_sublist g v).nodup hnd
  exact aux g.nodes [] (by intro c hc; cases hc)

theorem chooseMaxByLen_mem_or_nil (l : List (List Nat)) :
    chooseMaxByLen l = [] ∨ chooseMaxByLen l ∈ l := by
  unfold chooseMaxByLen
  have aux : ∀ (cs : List (List Nat)) (b : List Nat),
      cs.foldl (fun best c => if best.length < c.length then c else best) b = b
      ∨ cs.foldl (fun best c => if best.length < c.length then c else best) b
          ∈ cs := by
    intro cs
    induction cs with
    | nil => intro b; exact Or.inl rfl
    | cons c cs ih =>
      intro b
      simp only [List.foldl_cons]
      by_cases hc : b.length < c.length
      · rw [if_pos hc]
        rcases ih c with h | h
        · exact Or.inr (by rw [h]; exact List.mem_cons_self c cs)
        · exact Or.inr (List.mem_cons_of_mem c h)
      · rw [if_neg hc]
        rcases ih b with h | h
        · exact Or.inl h
        · exact Or.inr (List.mem_cons_of_mem c h)
  rcases aux l [] with h | h
  · exact Or.inl h
  · exact Or.inr h

theorem largestComponent_nodes_nodup (g : MultiDiGraph)
    (hnd : g.nodes.Nodup) : (largestComponent g).nodes.Nodup := by
  unfold largestComponent subgraphOn
  rcases chooseMaxByLen_mem_or_nil (weakComponents g) with h | h
  · rw [h]; exact List.nodup_nil
  · exact weakComponents_mem_nodup g hnd _ h

theorem sampleLoop_ok_spec (rngPick : Option Nat → Nat → Nat × Nat)
    (H : MultiDiGraph) (nodes : List Nat) (seed : Option Nat)
    (n_pairs : Nat) (hnd : nodes.Nodup) :
    ∀ fuel attempts pairs out,
      sampleLoop rngPick H nodes seed n_pairs fuel attempts pairs = .ok out →
      (∀ p ∈ pairs, p.1 ≠ p.2 ∧ hasPathB H p.1 p.2 = true) →
      pairs.length ≤ n_pairs →
      (∀ p ∈ out, p.1 ≠ p.2 ∧ hasPathB H p.1 p.2 = true) ∧
        out.length ≤ n_pairs := by
  intro fuel
  induction fuel with
  | zero =>
    intro attempts pairs out hout hinv hlen
    cases hout
    exact ⟨hinv, hlen⟩
  | succ fuel ih =>
    intro attempts pairs out hout hinv hlen
    rw [sampleLoop] at hout
    by_cases hguard : pairs.length < n_pairs
    · rw [if_pos hguard] at hout
      by_cases hsmall : nodes.length < 2
      · rw [if_pos hsmall] at hout
        cases hout
      · rw [if_neg hsmall] at hout
        have hn2 : 2 ≤ nodes.length := by omega
        obtain ⟨hi, hj, hij⟩ :=
          drawDistinct_spec nodes.length hn2 (rngPick seed attempts)
        refine ih (attempts + 1) _ out hout ?_ ?_
        · intro p hp
          by_cases hpath : hasPathB H
              (nodes.getD (drawDistinct nodes.length
                (rngPick seed attempts)).1 0)
              (nodes.getD (drawDistinct nodes.length
                (rngPick seed attempts)).2 0) = true
          · rw [if_pos hpath] at hp
            rcases List.mem_append.1 hp with h1 | h1
            · exact hinv p h1
            · rw [List.mem_singleton.1 h1]
              exact ⟨getD_ne_of_nodup nodes hnd _ _ hi hj hij, hpath⟩
          · rw [if_neg hpath] at hp
            exact hinv p hp
        · by_cases hpath : hasPathB H
              (nodes.getD (drawDistinct nodes.length
                (rngPick seed attempts)).1 0)
              (nodes.getD (drawDistinct nodes.length
                (rngPick seed attempts)).2 0) = true
          · rw [if_pos hpath, List.length_append]
            simpa using hguard
          · rw [if_neg hpath]
            exact hlen
    · rw [if_neg hguard] at hout
      cases hout
      exact ⟨hinv, hlen⟩

theorem sampleLoop_ok_paths (rngPick : Option Nat → Nat → Nat × Nat)
    (H : MultiDiGraph) (nodes : List Nat) (seed : Option Nat)
    (n_pairs : Nat) :
    ∀ fuel attempts pairs out,
      sampleLoop rngPick H nodes seed n_pairs fuel attempts pairs = .ok out →
      (∀ p ∈ pairs, hasPathB H p.1 p.2 = true) →
      ∀ p ∈ out, hasPathB H p.1 p.2 = true := by
  intro fuel
  induction fuel with
  | zero =>
    intro attempts pairs out hout hinv
    cases hout
    exact hinv
  | succ fuel ih =>
    intro attempts pairs out hout hinv
    rw [sampleLoop] at hout
    by_cases hguard : pairs.length < n_pairs
    · rw [if_pos hguard] at hout
      by_cases hsmall : nodes.length < 2
      · rw [if_pos hsmall] at hout
        cases hout
      · rw [if_neg hsmall] at hout
        refine ih (attempts + 1) _ out hout ?_
        intro p hp
        by_cases hpath : hasPathB H
            (nodes.getD (drawDistinct nodes.length
              (rngPick seed attempts)).1 0)
            (nodes.getD (drawDistinct nodes.length
              (rngPick seed attempts)).2 0) = true
        · rw [if_pos hpath] at hp
          rcases List.mem_append.1 hp with h1 | h1
          · exact hinv p h1
          · rw [List.mem_singleton.1 h1]
            exact hpath
        · rw [if_neg hpath] at hp
          exact hinv p hp
    · rw [if_neg hguard] at hout
      cases hout
      exact hinv

theorem sampleLoop_no_error (rngPick : Option Nat → Nat → Nat × Nat)
    (H : MultiDiGraph) (nodes : List Nat) (seed : Option Nat)
    (n_pairs : Nat) (hn2 : 2 ≤ nodes.length) :
    ∀ fuel attempts pairs, ∃ out,
      sampleLoop rngPick H nodes seed n_pairs fuel attempts pairs
        = .ok out := by
  intro fuel
  induction fuel with
  | zero => intro attempts pairs; exact ⟨pairs, rfl⟩
  | succ fuel ih =>
    intro attempts pairs
    rw [sampleLoop]
    by_cases hguard : pairs.length < n_pairs
    · rw [if_pos hguard, if_neg (by omega : ¬ nodes.length < 2)]
      exact ih (attempts + 1) _
    · rw [if_neg hguard]
      exact ⟨pairs, rfl⟩

theorem sampleLoop_congr (rngPick rngPick' : Option Nat → Nat → Nat × Nat)
    (H : MultiDiGraph) (nodes : List Nat) (seed : Option Nat)
    (n_pairs : Nat) :
    ∀ fuel attempts pairs,
      (∀ t, attempts ≤ t → t < attempts + fuel →
        rngPick seed t = rngPick' seed t) →
      sampleLoop rngPick H nodes seed n_pairs fuel attempts pairs
        = sampleLoop rngPick' H nodes seed n_pairs fuel attempts pairs := by
  intro fuel
  induction fuel with
  | zero => intro attempts pairs _; rfl
  | succ fuel ih =>
    intro attempts pairs hagree
    rw [sampleLoop, sampleLoop]
    by_cases hguard : pairs.length < n_pairs
    · rw [if_pos hguard, if_pos hguard]
      by_cases hsmall : nodes.length < 2
      · rw [if_pos hsmall, if_pos hsmall]
      · rw [if_neg hsmall, if_neg hsmall]
        rw [hagree attempts (le_refl _) (by omega)]
        exact ih (attempts + 1) _ (fun t h1 h2 => hagree t (by omega) (by omega))
    · rw [if_neg hguard, if_neg hguard]

/-- C7 counterexample: on a one-node network with desired count 1, the
sampler fails with numpy's `ValueError` (a 2-element draw without
replacement from fewer than two nodes), not with the
sampling-exhaustion `RuntimeError` the claim names. -/
theorem sampler_small_component_error_counterexample :
    sample_od_pairs (fun _ _ => (0, 0)) ⟨[1], []⟩ 1 none
      = .error (.valueError
        "Cannot take a larger sample than population when replace is False") ∧
    sample_od_pairs (fun _ _ => (0, 0)) ⟨[1], []⟩ 1 none
      ≠ .error (.runtimeError "Could not sample any connected OD pairs.") := by
  constructor
  · decide
  · decide

/-- C7 amended: the connectivity sampler never returns a pair with
equal endpoints; it returns at most the desired count, and a nonempty
list whenever it succeeds; its result reads at most the first
`20 × desired-count` draws of the generator stream; when zero pairs are
found after exhausting the budget it fails with the sampling-exhaustion
`RuntimeError` (with at least two nodes in the largest component this
is its only possible failure); but when the largest component has
fewer than two nodes and the desired count is positive it fails with
numpy's `ValueError` from the draw, not with the sampling-exhaustion
error. -/
theorem sample_od_pairs_contract
    (rngPick rngPick' : Option Nat → Nat → Nat × Nat) (g : MultiDiGraph)
    (n_pairs : Nat) (seed : Option Nat) (hnd : g.nodes.Nodup) :
    (∀ pairs, sample_od_pairs rngPick g n_pairs seed = .ok pairs →
      (∀ p ∈ pairs, p.1 ≠ p.2) ∧ pairs.length ≤ n_pairs ∧ pairs ≠ []) ∧
    ((∀ t, t < n_pairs * 20 → rngPick seed t = rngPick' seed t) →
      sample_od_pairs rngPick g n_pairs seed
        = sample_od_pairs rngPick' g n_pairs seed) ∧
    (2 ≤ (largestComponent g).nodes.length →
      sample_od_pairs rngPick g n_pairs seed
          = .error (.runtimeError "Could not sample any connected OD pairs.")
        ∨ ∃ pairs, sample_od_pairs rngPick g n_pairs seed = .ok pairs
            ∧ pairs ≠ []) ∧
    ((largestComponent g).nodes.length < 2 → 1 ≤ n_pairs →
      sample_od_pairs rngPick g n_pairs seed
        = .error (.valueError
          "Cannot take a larger sample than population when replace is False"))
    := by
  refine ⟨?_, ?_, ?_, ?_⟩
  · intro pairs h
    unfold sample_od_pairs at h
    split at h
    · cases h
    · rename_i lp hl
      split at h
      · cases h
      · rename_i he
        obtain rfl : lp = pairs := by injection h
        have hspec := sampleLoop_ok_spec rngPick (largestComponent g)
          (largestComponent g).nodes seed n_pairs
          (largestComponent_nodes_nodup g hnd) (n_pairs * 20) 0 [] lp hl
          (by intro p hp; cases hp) (by simp)
        exact ⟨fun p hp => (hspec.1 p hp).1, hspec.2, he⟩
  · intro hagree
    unfold sample_od_pairs
    rw [sampleLoop_congr rngPick rngPick' (largestComponent g)
      (largestComponent g).nodes seed n_pairs (n_pairs * 20) 0 []
      (fun t h1 h2 => hagree t (by omega))]
  · intro hn2
    obtain ⟨out, hout⟩ := sampleLoop_no_error rngPick (largestComponent g)
      (largestComponent g).nodes seed n_pairs hn2 (n_pairs * 20) 0 []
    unfold sample_od_pairs
    simp only [hout]
    by_cases he : out = []
    · rw [if_pos he]
      exact Or.inl rfl
    · rw [if_neg he]
      exact Or.inr ⟨out, rfl, he⟩
  · intro hsmall hnp
    unfold sample_od_pairs
    obtain ⟨f, hf⟩ : ∃ f, n_pairs * 20 = f + 1 := ⟨n_pairs * 20 - 1, by omega⟩
    rw [hf, sampleLoop]
    rw [if_pos (by simpa using hnp : ([] : List (Nat × Nat)).length < n_pairs)]
    rw [if_pos hsmall]

/-- C7 amended witness: a two-node strongly connected network with
desired count 2 yields distinct-endpoint pairs, at most 2 of them,
nonempty; the generator-agreement, error-dichotomy and small-component
conjuncts are instantiated alongside. -/
theorem sample_od_pairs_contract_witness :
    ((∀ pairs, sample_od_pairs (fun _ t => (t, t))
        ⟨[1, 2], [{ u := 1, v := 2, k := 0 }, { u := 2, v := 1, k := 0 }]⟩
        2 (some 5) = .ok pairs →
      (∀ p ∈ pairs, p.1 ≠ p.2) ∧ pairs.length ≤ 2 ∧ pairs ≠ []) ∧
    (2 ≤ (largestComponent
        ⟨[1, 2], [{ u := 1, v := 2, k := 0 }, { u := 2, v := 1, k := 0 }]⟩
        ).nodes.length →
      sample_od_pairs (fun _ t => (t, t))
          ⟨[1, 2], [{ u := 1, v := 2, k := 0 }, { u := 2, v := 1, k := 0 }]⟩
          2 (some 5)
          = .error (.runtimeError "Could not sample any connected OD pairs.")
        ∨ ∃ pairs, sample_od_pairs (fun _ t => (t, t))
            ⟨[1, 2], [{ u := 1, v := 2, k := 0 }, { u := 2, v := 1, k := 0 }]⟩
            2 (some 5) = .ok pairs ∧ pairs ≠ [])) := by
  have h := sample_od_pairs_contract (fun _ t => (t, t)) (fun _ t => (t, t))
    ⟨[1, 2], [{ u := 1, v := 2, k := 0 }, { u := 2, v := 1, k := 0 }]⟩
    2 (some 5) (by decide)
  exact ⟨h.1, h.2.2.1⟩

theorem mem_reachStep_of_mem (es : List EdgeData) (S : List Nat) (x : Nat)
    (h : x ∈ S) : x ∈ reachStep es S := by
  unfold reachStep
  exact List.mem_append.2 (Or.inl h)

theorem reachStep_mono (es es' : List EdgeData) (S T : List Nat)
    (hes : ∀ e ∈ es, e ∈ es') (hST : ∀ y ∈ S, y ∈ T) :
    ∀ x ∈ reachStep es S, x ∈ reachStep es' T := by
  intro x hx
  unfold reachStep at hx ⊢
  rcases List.mem_append.1 hx with h | h
  · exact List.mem_append.2 (Or.inl (hST x h))
  · obtain ⟨e, he, rfl⟩ := List.mem_map.1 h
    have hef := List.mem_filter.1 he
    have heu : e.u ∈ S := by
      have h2 := hef.2
      rw [Bool.and_eq_true] at h2
      simpa using h2.1
    by_cases hvT : e.v ∈ T
    · exact List.mem_append.2 (Or.inl hvT)
    · refine List.mem_append.2 (Or.inr (List.mem_map.2
        ⟨e, List.mem_filter.2 ⟨hes e hef.1, ?_⟩, rfl⟩))
      simp [hST e.u heu, hvT]

theorem mem_reachAux_of_mem (es : List EdgeData) :
    ∀ (n : Nat) (S : List Nat) (x : Nat), x ∈ S → x ∈ reachAux es n S := by
  intro n
  induction n with
  | zero => intro S x h; exact h
  | succ n ih =>
    intro S x h
    exact ih (reachStep es S) x (mem_reachStep_of_mem es S x h)

theorem reachAux_mono (es es' : List EdgeData)
    (hes : ∀ e ∈ es, e ∈ es') :
    ∀ (n m : Nat) (S T : List Nat), n ≤ m → (∀ y ∈ S, y ∈ T) →
      ∀ x ∈ reachAux es n S, x ∈ reachAux es' m T := by
  intro n
  induction n with
  | zero =>
    intro m S T _ hST x hx
    exact mem_reachAux_of_mem es' m T x (hST x hx)
  | succ n ih =>
    intro m S T hnm hST x hx
    obtain ⟨m', rfl⟩ : ∃ m', m = m' + 1 := ⟨m - 1, by omega⟩
    exact ih m' (reachStep es S) (reachStep es' T) (by omega)
      (reachStep_mono es es' S T hes hST) x hx

theorem hasPathB_mono (H G : MultiDiGraph)
    (hedges : ∀ e ∈ H.edges, e ∈ G.edges)
    (hlen : H.nodes.length ≤ G.nodes.length) (u v : Nat)
    (h : hasPathB H u v = true) : hasPathB G u v = true := by
  unfold hasPathB reachableFrom at h ⊢
  rw [decide_eq_true_iff] at h ⊢
  exact reachAux_mono H.edges G.edges hedges H.nodes.length G.nodes.length
    [u] [u] hlen (fun y hy => hy) v h

theorem weakComponents_mem_sublist (g : MultiDiGraph) :
    ∀ c ∈ weakComponents g, c.Sublist g.nodes := by
  unfold weakComponents
  have aux : ∀ (l : List Nat) (acc : List (List Nat)),
      (∀ c ∈ acc, c.Sublist g.nodes) →
      ∀ c ∈ l.foldl (fun acc v =>
        if acc.any (fun c => decide (v ∈ c)) then acc
        else acc ++ [weakComponentOf g v]) acc, c.Sublist g.nodes := by
    intro l
    induction l with
    | nil => intro acc h c hc; exact h c hc
    | cons v vs ih =>
      intro acc h c hc
      simp only [List.foldl_cons] at hc
      by_cases hv : acc.any (fun c => decide (v ∈ c))
      · rw [if_pos hv] at hc
        exact ih acc h c hc
      · rw [if_neg hv] at hc
        refine ih _ ?_ c hc
        intro c' hc'
        rcases List.mem_append.1 hc' with h1 | h1
        · exact h c' h1
        · rw [List.mem_singleton.1 h1]
          exact weakComponentOf_sublist g v
  exact aux g.nodes [] (by intro c hc; cases hc)

theorem largestComponent_edges_subset (g : MultiDiGraph) :
    ∀ e ∈ (largestComponent g).edges, e ∈ g.edges := by
  intro e he
  unfold largestComponent subgraphOn at he
  exact (List.mem_filter.1 he).1

theorem largestComponent_nodes_le (g : MultiDiGraph) :
    (largestComponent g).nodes.length ≤ g.nodes.length := by
  unfold largestComponent subgraphOn
  rcases chooseMaxByLen_mem_or_nil (weakComponents g) with h | h
  · rw [h]; simp
  · exact (weakComponents_mem_sublist g _ h).length_le

theorem hasPathB_largestComponent (g : MultiDiGraph) (u v : Nat)
    (h : hasPathB (largestComponent g) u v = true) :
    hasPathB g u v = true :=
  hasPathB_mono (largestComponent g) g (largestComponent_edges_subset g)
    (largestComponent_nodes_le g) u v h

theorem sample_od_pairs_ok_spec (rngPick : Option Nat → Nat → Nat × Nat)
    (g : MultiDiGraph) (n_pairs : Nat) (seed : Option Nat)
    (pairs : List (Nat × Nat))
    (h : sample_od_pairs rngPick g n_pairs seed = .ok pairs) :
    pairs ≠ [] ∧
      ∀ p ∈ pairs, hasPathB (largestComponent g) p.1 p.2 = true := by
  unfold sample_od_pairs at h
  split at h
  · cases h
  · rename_i lp hl
    split at h
    · cases h
    · rename_i he
      obtain rfl : lp = pairs := by injection h
      exact ⟨he, sampleLoop_ok_paths rngPick (largestComponent g)
        (largestComponent g).nodes seed n_pairs (n_pairs * 20) 0 [] lp hl
        (by intro p hp; cases hp)⟩

theorem pairStep_foldl_some_length (gB gA : MultiDiGraph) (w : String)
    (pen : ℚ) :
    ∀ (pairs : List (Nat × Nat)) (acc : List ℚ × Nat),
      (∀ p ∈ pairs, (astar_path_length gB w p.1 p.2).isSome) →
      (pairs.foldl (pairStep gB gA w pen) acc).1.length
        = acc.1.length + pairs.length := by
  intro pairs
  induction pairs with
  | nil => intro acc _; simp
  | cons p rest ih =>
    intro acc h
    obtain ⟨b, hb⟩ := Option.isSome_iff_exists.1
      (h p (List.mem_cons_self p rest))
    have hstep : ∃ x k, pairStep gB gA w pen acc p = (acc.1 ++ [x], k) := by
      unfold pairStep
      rw [hb]
      cases astar_path_length gA w p.1 p.2 with
      | none => exact ⟨pen, acc.2 + 1, rfl⟩
      | some d => exact ⟨d / b, acc.2, rfl⟩
    obtain ⟨x, k, hstep⟩ := hstep
    rw [List.foldl_cons, hstep,
      ih _ (fun q hq => h q (List.mem_cons_of_mem p hq))]
    simp
    omega

/-- C2: in every run of the shock simulation that removed at least one
edge and returned a result, every sampled OD pair has a baseline path
(the sampler accepts only pairs connected inside the largest component
of the pre-damage network, so the no-baseline-path exclusion never
fires), hence the retained pairs are all the sampled pairs, the
returned `n_pairs` equals the retained-pair count, and
`pct_disconnected` equals `100 × disconnected_count / retained_pair_count`. -/
theorem simulate_excluded_pairs_accounting
    (rngPick : Option Nat → Nat → Nat × Nat) (g : MultiDiGraph)
    (ids : List EdgeId) (n_pairs : Nat) (pen : ℚ) (seed : Option Nat)
    (pairs : List (Nat × Nat)) (res : ShockResult)
    (hs : sample_od_pairs rngPick g n_pairs seed = .ok pairs)
    (hr : (simulate_single_shock rngPick g ids n_pairs pen seed).1 = .ok res)
    (hrem : (removeEdgesCount g ids).2 ≠ 0) :
    pairs.filter (fun p =>
        (astar_path_length g (weightAttr g) p.1 p.2).isSome) = pairs ∧
    res.n_pairs = (pairs.filter (fun p =>
        (astar_path_length g (weightAttr g) p.1 p.2).isSome)).length ∧
    res.pct_disconnected
      = 100 * (((pairs.foldl (pairStep g (removeEdgesCount g ids).1
            (weightAttr g) pen) ([], 0)).2 : ℚ))
        / ((pairs.filter (fun p =>
            (astar_path_length g (weightAttr g) p.1 p.2).isSome)).length : ℚ)
    := by
  obtain ⟨hne, hpath⟩ := sample_od_pairs_ok_spec rngPick g n_pairs seed pairs hs
  have hsome : ∀ p ∈ pairs,
      (astar_path_length g (weightAttr g) p.1 p.2).isSome := by
    intro p hp
    have hg := hasPathB_largestComponent g p.1 p.2 (hpath p hp)
    unfold astar_path_length
    rw [if_pos hg]
    rfl
  have hfilter : pairs.filter (fun p =>
      (astar_path_length g (weightAttr g) p.1 p.2).isSome) = pairs :=
    List.filter_eq_self.mpr (fun p hp => hsome p hp)
  unfold simulate_single_shock at hr
  dsimp only at hr
  rw [if_neg hrem] at hr
  simp only [hs] at hr
  have hres : res = shockAggregate g (removeEdgesCount g ids).1 pen
      (removeEdgesCount g ids).2 pairs := by
    injection hr with hr
    exact hr.symm
  have hlenfold : ((pairs.foldl (pairStep g (removeEdgesCount g ids).1
      (weightAttr g) pen) ([], 0)).1).length = pairs.length := by
    rw [pairStep_foldl_some_length g (removeEdgesCount g ids).1
      (weightAttr g) pen pairs ([], 0) hsome]
    simp
  have hrne : (pairs.foldl (pairStep g (removeEdgesCount g ids).1
      (weightAttr g) pen) ([], 0)).1 ≠ [] := by
    intro hcon
    rw [hcon] at hlenfold
    exact hne (List.length_eq_zero.mp hlenfold.symm)
  rw [hres]
  unfold shockAggregate
  dsimp only
  rw [if_neg hrne, hfilter]
  exact ⟨rfl, rfl, rfl⟩

/-- C2 witness: one concrete run on `gOD` (two nodes, both directions,
`travel_time` weights) removing one edge with one sampled pair: the
retained-pair filter keeps every sampled pair, and the result's
`n_pairs` is the retained count. -/
theorem simulate_excluded_pairs_accounting_witness :
    [((1 : Nat), (2 : Nat))].filter (fun p =>
      (astar_path_length gOD (weightAttr gOD) p.1 p.2).isSome) = [(1, 2)] ∧
    (shockAggregate gOD (removeEdgesCount gOD [(2, 1, 0)]).1 5
        (removeEdgesCount gOD [(2, 1, 0)]).2 [(1, 2)]).n_pairs
      = ([((1 : Nat), (2 : Nat))].filter (fun p =>
        (astar_path_length gOD (weightAttr gOD) p.1 p.2).isSome)).length := by
  have hs : sample_od_pairs pickT gOD 1 none = .ok [(1, 2)] := by decide
  have hr : (simulate_single_shock pickT gOD [(2, 1, 0)] 1 5 none).1
      = .ok (shockAggregate gOD (removeEdgesCount gOD [(2, 1, 0)]).1 5
        (removeEdgesCount gOD [(2, 1, 0)]).2 [(1, 2)]) := by
    unfold simulate_single_shock
    dsimp only
    rw [if_neg (by decide : ¬ (removeEdgesCount gOD [(2, 1, 0)]).2 = 0)]
    simp only [hs]
  have h := simulate_excluded_pairs_accounting pickT gOD [(2, 1, 0)] 1 5 none
    [(1, 2)]
    (shockAggregate gOD (removeEdgesCount gOD [(2, 1, 0)]).1 5
      (removeEdgesCount gOD [(2, 1, 0)]).2 [(1, 2)])
    hs hr (by decide)
  exact ⟨h.1, h.2.1.trans (by rw [h.1])⟩

theorem experimentCell_ok_fields (ext : SelectExt)
    (rngPick : Option Nat → Nat → Nat × Nat) (city : String)
    (g : MultiDiGraph) (scenario : String) (sev : ℚ) (run : Nat)
    (n_pairs : Nat) (polys : Option (List Nat)) (seed : Nat)
    (row : ExperimentRow)
    (h : experimentCell ext rngPick city g scenario sev run n_pairs polys
      seed = .ok row) :
    row.city = city ∧ row.scenario = scenario ∧ row.severity = sev ∧
      row.run = run := by
  unfold experimentCell at h
  split at h
  · cases h
  · split at h
    · cases h
    · obtain rfl : (⟨city, scenario, sev, run, _⟩ : ExperimentRow) = row :=
        by injection h
      exact ⟨rfl, rfl, rfl, rfl⟩

theorem runRepeats_spec (ext : SelectExt)
    (rngPick : Option Nat → Nat → Nat × Nat) (city : String)
    (g : MultiDiGraph) (scenario : String) (sev : ℚ) (n_pairs : Nat)
    (polys : Option (List Nat)) (base_seed i : Nat) :
    ∀ fuel run rows,
      runRepeats ext rngPick city g scenario sev n_pairs polys base_seed i
        fuel run = .ok rows →
      rows.length = fuel ∧
      ∀ j, j < fuel → ∃ row, rows[j]? = some row ∧
        experimentCell ext rngPick city g scenario sev (run + j) n_pairs
          polys (base_seed + i * 100 + (run + j)) = .ok row := by
  intro fuel
  induction fuel with
  | zero =>
    intro run rows h
    obtain rfl : ([] : List ExperimentRow) = rows := by injection h
    exact ⟨rfl, fun j hj => absurd hj (by omega)⟩
  | succ fuel ih =>
    intro run rows h
    rw [runRepeats] at h
    split at h
    · cases h
    · rename_i row hcell
      split at h
      · cases h
      · rename_i rest hrest
        obtain rfl : row :: rest = rows := by injection h
        obtain ⟨hlen, hidx⟩ := ih (run + 1) rest hrest
        refine ⟨by simp [hlen], ?_⟩
        intro j hj
        cases j with
        | zero =>
          refine ⟨row, by simp, ?_⟩
          simpa using hcell
        | succ j =>
          obtain ⟨row', hget, hcell'⟩ := hidx j (by omega)
          refine ⟨row', by simpa using hget, ?_⟩
          have harith : run + 1 + j = run + (j + 1) := by omega
          rw [harith] at hcell'
          exact hcell'

theorem runSeverities_spec (ext : SelectExt)
    (rngPick : Option Nat → Nat → Nat × Nat) (city : String)
    (g : MultiDiGraph) (scenario : String) (n_pairs runs : Nat)
    (polys : Option (List Nat)) (base_seed : Nat) :
    ∀ (sevs : List ℚ) (i : Nat) (rows : List ExperimentRow),
      runSeverities ext rngPick city g scenario n_pairs runs polys base_seed
        sevs i = .ok rows →
      rows.length = sevs.length * runs ∧
      ∀ j r (hj : j < sevs.length), r < runs →
        ∃ row, rows[j * runs + r]? = some row ∧
          experimentCell ext rngPick city g scenario sevs[j] r n_pairs
            polys (base_seed + (i + j) * 100 + r) = .ok row := by
  intro sevs
  induction sevs with
  | nil =>
    intro i rows h
    obtain rfl : ([] : List ExperimentRow) = rows := by injection h
    exact ⟨by simp, fun j r hj _ => absurd hj (by simp)⟩
  | cons sev rest ihs =>
    intro i rows h
    rw [runSeverities] at h
    split at h
    · cases h
    · rename_i rows1 hrep
      split at h
      · cases h
      · rename_i rows2 hsev
        obtain rfl : rows1 ++ rows2 = rows := by injection h
        obtain ⟨hlen1, hidx1⟩ := runRepeats_spec ext rngPick city g scenario
          sev n_pairs polys base_seed i runs 0 rows1 hrep
        obtain ⟨hlen2, hidx2⟩ := ihs (i + 1) rows2 hsev
        constructor
        · simp [hlen1, hlen2]
          ring
        · intro j r hj hr
          cases j with
          | zero =>
            obtain ⟨row, hget, hcell⟩ := hidx1 r hr
            refine ⟨row, ?_, ?_⟩
            · rw [List.getElem?_append,
                if_pos (by rw [hlen1]; omega : 0 * runs + r < rows1.length)]
              simpa using hget
            · simpa using hcell
          | succ j =>
            obtain ⟨row, hget, hcell⟩ := hidx2 j r (by simpa using hj) hr
            refine ⟨row, ?_, ?_⟩
            · rw [List.getElem?_append,
                if_neg (by
                  rw [hlen1]
                  have hh : (j + 1) * runs = j * runs + runs := by ring
                  omega : ¬ ((j + 1) * runs + r < rows1.length))]
              rw [hlen1]
              rw [show (j + 1) * runs + r - runs = j * runs + r by
                have hh : (j + 1) * runs = j * runs + runs := by ring
                omega]
              exact hget
            · rw [show i + (j + 1) = i + 1 + j from by omega]
              simpa [List.getElem_cons_succ] using hcell

/-- C5: for a progressive sweep that returned a table, the table has
one row per (severity, repeat) cell in severity-major order: the row at
index `i * repeats + r` is exactly the cell produced with seed
`base_seed + i*100 + r` (passed, inside `experimentCell`, to both the
edge selection and the shock simulation), stamped with the severity at
input index `i` and repeat index `r`; and any second execution with
identical inputs produces the identical table. -/
theorem progressive_sweep_seed_formula
    (ext : SelectExt) (rngPick : Option Nat → Nat → Nat × Nat)
    (city : String) (g : MultiDiGraph) (scenario : String)
    (severities : List ℚ) (n_pairs runs : Nat) (polys : Option (List Nat))
    (base_seed : Nat) (rows : List ExperimentRow)
    (h : run_progressive_damage_experiment ext rngPick city g scenario
      severities n_pairs runs polys base_seed = .ok rows) :
    rows.length = severities.length * runs ∧
    (∀ (i r : Nat) (hi : i < severities.length), r < runs →
      ∃ row, rows[i * runs + r]? = some row ∧
        experimentCell ext rngPick city g scenario severities[i] r n_pairs
          polys (base_seed + i * 100 + r) = .ok row ∧
        row.severity = severities[i] ∧ row.run = r) ∧
    (∀ rows', run_progressive_damage_experiment ext rngPick city g scenario
        severities n_pairs runs polys base_seed = .ok rows' →
      rows' = rows) := by
  unfold run_progressive_damage_experiment at h
  obtain ⟨hlen, hidx⟩ := runSeverities_spec ext rngPick city g scenario
    n_pairs runs polys base_seed severities 0 rows h
  refine ⟨hlen, ?_, ?_⟩
  · intro i r hi hr
    obtain ⟨row, hget, hcell⟩ := hidx i r hi hr
    rw [show (0 : Nat) + i = i from by omega] at hcell
    obtain ⟨_, _, hsev, hrun⟩ := experimentCell_ok_fields ext rngPick city g
      scenario severities[i] r n_pairs polys (base_seed + i * 100 + r) row
      hcell
    exact ⟨row, hget, hcell, hsev, hrun⟩
  · intro rows' h'
    unfold run_progressive_damage_experiment at h'
    rw [h] at h'
    injection h' with h'
    exact h'.symm

/-- C5 witness: a concrete sweep (severities `[0, 1]`, two repeats,
base seed 42, Bridge Collapse on an untagged network, so every cell is
the neutral no-op result) has 4 rows in severity-major order; the cell
at severity index 1, repeat 1 carries seed `42 + 1*100 + 1`. -/
theorem progressive_sweep_seed_formula_witness :
    ([⟨"c", "Bridge Collapse", 0, 0, ⟨1, 1, 0, 0, 0⟩⟩,
      ⟨"c", "Bridge Collapse", 0, 1, ⟨1, 1, 0, 0, 0⟩⟩,
      ⟨"c", "Bridge Collapse", 1, 0, ⟨1, 1, 0, 0, 0⟩⟩,
      ⟨"c", "Bridge Collapse", 1, 1, ⟨1, 1, 0, 0, 0⟩⟩] :
        List ExperimentRow).length = [(0 : ℚ), 1].length * 2 ∧
    (∃ row,
      ([⟨"c", "Bridge Collapse", 0, 0, ⟨1, 1, 0, 0, 0⟩⟩,
        ⟨"c", "Bridge Collapse", 0, 1, ⟨1, 1, 0, 0, 0⟩⟩,
        ⟨"c", "Bridge Collapse", 1, 0, ⟨1, 1, 0, 0, 0⟩⟩,
        ⟨"c", "Bridge Collapse", 1, 1, ⟨1, 1, 0, 0, 0⟩⟩] :
          List ExperimentRow)[1 * 2 + 1]? = some row ∧
      experimentCell extW pickT "c" gOD "Bridge Collapse"
        ([(0 : ℚ), 1])[1] 1 1 none (42 + 1 * 100 + 1) = .ok row ∧
      row.severity = ([(0 : ℚ), 1])[1] ∧ row.run = 1) := by
  have h := progressive_sweep_seed_formula extW pickT "c" gOD
    "Bridge Collapse" [(0 : ℚ), 1] 1 2 none 42
    [⟨"c", "Bridge Collapse", 0, 0, ⟨1, 1, 0, 0, 0⟩⟩,
     ⟨"c", "Bridge Collapse", 0, 1, ⟨1, 1, 0, 0, 0⟩⟩,
     ⟨"c", "Bridge Collapse", 1, 0, ⟨1, 1, 0, 0, 0⟩⟩,
     ⟨"c", "Bridge Collapse", 1, 1, ⟨1, 1, 0, 0, 0⟩⟩]
    (by decide)
  exact ⟨h.1, h.2.1 1 1 (by decide) (by decide)⟩

end UrbanResilience
